import Mathlib

/-!
Verification of the data-selection and block-assembly utilities of
`tools/elephant/image/utils.py` (`_parse_slice`, `select_data`,
`prepare_data`), over a shallow embedding of the relevant Python
semantics: lists, `int`/`slice` subscripts, `str.split(":")`, `int(...)`
parsing, and the exception flow (`ValueError`, `IndexError`,
`AttributeError`).  Neo containers are modelled structurally: a Block
holds a list of Segments; a Segment holds a list of analog signals and a
list of spike trains (`block.segments`, `segment.analogsignals` and the
backing list of `segment.spiketrains` are plain Python lists, whose
`IndexError` message on an integer subscript is the CPython constant
"list index out of range").
-/

/-- Python exceptions that the modelled code can raise, with their messages. -/
inductive PyErr where
  | valueError (msg : String)
  | indexError (msg : String)
  | attributeError (msg : String)
deriving DecidableEq, Repr

/-- `neo.Segment`, restricted to the two ordered data lists the utilities
touch: `analogsignals` (element type `α`) and `spiketrains` (element type `β`). -/
structure Segment (α β : Type) where
  analogsignals : List α
  spiketrains : List β
deriving DecidableEq, Repr

/-- `neo.Block`, restricted to its ordered `segments` list. -/
structure Block (α β : Type) where
  segments : List (Segment α β)
deriving DecidableEq, Repr

/-- An argument that is a Python `int` or `str` (the declared argument types
of `_parse_slice` and the index arguments of `select_data`). -/
inductive SliceArg where
  | int (n : Int)
  | str (s : String)
deriving DecidableEq, Repr

/-- A Python `slice(start, stop, step)` object with optional components. -/
structure PySlice where
  start : Option Int
  stop : Option Int
  step : Option Int
deriving DecidableEq, Repr

/-- The result of `_parse_slice`: either an `int` passed through, or a
`slice` object. -/
inductive ParsedIndex where
  | int (n : Int)
  | slice (s : PySlice)
deriving DecidableEq, Repr

/-- One element of the heterogeneous Python list that `select_data` returns:
a single AnalogSignal, a list of AnalogSignals (from a per-segment slice), a
single SpikeTrain, or a list of SpikeTrains. -/
inductive Selected (α β : Type) where
  | sig (a : α)
  | sigList (l : List α)
  | st (b : β)
  | stList (l : List β)
deriving DecidableEq, Repr

/-- Decidable equality for `Except`, used to evaluate concrete runs. -/
def exceptDecEq {ε γ : Type} [DecidableEq ε] [DecidableEq γ] :
    DecidableEq (Except ε γ)
  | .ok a, .ok b =>
    if h : a = b then isTrue (by rw [h]) else isFalse (fun hh => h (Except.ok.inj hh))
  | .ok _, .error _ => isFalse (fun hh => Except.noConfusion hh)
  | .error _, .ok _ => isFalse (fun hh => Except.noConfusion hh)
  | .error a, .error b =>
    if h : a = b then isTrue (by rw [h]) else isFalse (fun hh => h (Except.error.inj hh))

instance {ε γ : Type} [DecidableEq ε] [DecidableEq γ] : DecidableEq (Except ε γ) :=
  exceptDecEq

/-! ### Python string and integer primitives -/

/-- The whitespace characters Python's `int(str)` strips. -/
def isPySpace (c : Char) : Bool :=
  c = ' ' || c = '\t' || c = '\n' || c = '\r' || c = '\x0b' || c = '\x0c'

/-- Strip leading and trailing Python whitespace from a character list. -/
def trimChars (cs : List Char) : List Char :=
  ((cs.dropWhile isPySpace).reverse.dropWhile isPySpace).reverse

/-- All characters are ASCII decimal digits (and the list is nonempty). -/
def allDigits : List Char → Bool
  | [] => false
  | [c] => c.isDigit
  | c :: rest => c.isDigit && allDigits rest

/-- Accumulate the decimal value of a digit list. -/
def digitsToNat : List Char → Nat → Nat
  | [], acc => acc
  | c :: rest, acc => digitsToNat rest (acc * 10 + (c.toNat - 48))

/-- Python `int(str)` on a stripped character list: optional sign then decimal
digits.  (Underscore digit grouping, accepted by CPython, is not modelled;
every input the claims exercise is sign-and-digits.)  `none` models the
`ValueError` that `int(...)` raises. -/
def pyIntOfChars : List Char → Option Int
  | '-' :: rest => if allDigits rest then some (-(digitsToNat rest 0 : Int)) else none
  | '+' :: rest => if allDigits rest then some (digitsToNat rest 0 : Int) else none
  | cs => if allDigits cs then some (digitsToNat cs 0 : Int) else none

/-- Python `int(str)`. -/
def pyInt? (s : String) : Option Int :=
  pyIntOfChars (trimChars s.data)

/-- Python `str.split(":")` on a character list (single-character separator,
which is the only separator the source uses). -/
def splitOnColon : List Char → List (List Char)
  | [] => [[]]
  | c :: rest =>
    if c = ':' then [] :: splitOnColon rest
    else
      match splitOnColon rest with
      | [] => [[c]]
      | h :: t => (c :: h) :: t

/-- Python `s.split(":")`. -/
def pySplit (s : String) : List String :=
  (splitOnColon s.data).map (fun cs => ⟨cs⟩)

/-- Does `hay` start with `needle`? -/
def seqStartsWith : List Char → List Char → Bool
  | _, [] => true
  | [], _ :: _ => false
  | h :: hs, nh :: ns => h = nh && seqStartsWith hs ns

/-- Does `hay` contain `needle` as a contiguous subsequence? -/
def seqContains : List Char → List Char → Bool
  | [], needle => needle.isEmpty
  | h :: hs, needle => seqStartsWith (h :: hs) needle || seqContains hs needle

/-- Python `needle in hay` on strings. -/
def pyContains (needle hay : String) : Bool :=
  seqContains hay.data needle.data

/-- Decimal digits of a natural number (fuel-based so it is structurally
recursive; fuel `n+1` always suffices). -/
def natDigitsGo : Nat → Nat → List Char
  | 0, _ => []
  | fuel + 1, n =>
    if n < 10 then [Char.ofNat (48 + n)]
    else natDigitsGo fuel (n / 10) ++ [Char.ofNat (48 + n % 10)]

/-- Python `str(n)` for a natural number. -/
def natStr (n : Nat) : String :=
  ⟨natDigitsGo (n + 1) n⟩

/-- Python `str(n)` for an `int`. -/
def intStr (n : Int) : String :=
  if n < 0 then "-" ++ natStr n.natAbs else natStr n.natAbs

/-- Python `f"{x}"` for an int-or-str argument. -/
def sliceArgStr : SliceArg → String
  | .int n => intStr n
  | .str s => s

/-- Python `f"{x}"` for an optional int-or-str argument (`str(None)` is
`"None"`). -/
def optArgStr : Option SliceArg → String
  | none => "None"
  | some a => sliceArgStr a

/-! ### Python subscripts: `l[i]` and `l[a:b:c]` -/

/-- Python `l[i]` for an `int` subscript on a list: negative indices count
from the end; out of range raises `IndexError` (modelled as `none`). -/
def pyGetItem {α : Type} (xs : List α) (i : Int) : Option α :=
  let j := if i < 0 then i + xs.length else i
  if 0 ≤ j then xs[j.toNat]? else none

/-- Python `l[start:stop:step]` on a list, CPython's `PySlice_AdjustIndices`
semantics: bounds are clamped (never raising), negative bounds count from the
end, missing bounds default by the sign of `step`.  `none` models the
`ValueError("slice step cannot be zero")`. -/
def pySliceSelect {α : Type} (xs : List α) (start stop step : Option Int) :
    Option (List α) :=
  let len : Int := xs.length
  let st := step.getD 1
  if st = 0 then none
  else if 0 < st then
    let lo : Int :=
      match start with
      | none => 0
      | some v => if v < 0 then max (v + len) 0 else min v len
    let hi : Int :=
      match stop with
      | none => len
      | some v => if v < 0 then max (v + len) 0 else min v len
    let d := st.toNat
    let cnt : Nat := ((hi - lo).toNat + d - 1) / d
    some ((List.range' lo.toNat cnt d).filterMap (fun k => xs[k]?))
  else
    let lo : Int :=
      match start with
      | none => len - 1
      | some v => if v < 0 then max (v + len) (-1) else min v (len - 1)
    let hi : Int :=
      match stop with
      | none => -1
      | some v => if v < 0 then max (v + len) (-1) else min v (len - 1)
    let d := (-st).toNat
    let cnt : Nat := ((lo - hi).toNat + d - 1) / d
    some ((List.range' 0 cnt 1).filterMap (fun k => xs[(lo - k * d).toNat]?))

/-! ### `_parse_slice` -/

/-- One component of a slice string: empty maps to `None`, otherwise it must
parse as an `int` (outer `none` models the `ValueError` from `int(...)`). -/
def parseComp (p : String) : Option (Option Int) :=
  if p = "" then some none else (pyInt? p).map some

/-- `_parse_slice` from `utils.py`: an `int` is passed through; `"all"` is
rewritten to `":"`; the string is split on `":"`, `start`/`stop`/`step` are
taken from the first three parts (missing or empty parts become `None`), and
1 is added to a present, non-empty `stop`.  A component that fails `int(...)`
raises `ValueError(f"Invalid slice string: {slice_str}")`. -/
def _parse_slice (arg : SliceArg) : Except PyErr ParsedIndex :=
  match arg with
  | .int n => .ok (.int n)
  | .str s0 =>
    let s := if s0 = "all" then ":" else s0
    let parts := pySplit s
    match parseComp (parts.getD 0 ""),
        (if 1 < parts.length then
          (parseComp (parts.getD 1 "")).map (fun o => o.map (fun v => v + 1))
        else some none),
        (if 2 < parts.length then parseComp (parts.getD 2 "") else some none) with
    | some st, some sp, some se => .ok (.slice ⟨st, sp, se⟩)
    | _, _, _ => .error (.valueError ("Invalid slice string: " ++ s))

/-! ### `select_data` -/

/-- Python `l[idx]` where `idx` is an `int` or a `slice`: `inl` is a scalar
result (not a `list`), `inr` a list result — mirroring the
`isinstance(..., list)` tests in `select_data`. -/
def pySubscript {γ : Type} (l : List γ) (p : ParsedIndex) : Except PyErr (γ ⊕ List γ) :=
  match p with
  | .int n =>
    match pyGetItem l n with
    | some x => .ok (.inl x)
    | none => .error (.indexError "list index out of range")
  | .slice sl =>
    match pySliceSelect l sl.start sl.stop sl.step with
    | some xs => .ok (.inr xs)
    | none => .error (.valueError "slice step cannot be zero")

/-- The value `segment.spiketrains[idx]` contributes to the comprehension of
the spike-train branch of `select_data`. -/
def selSpike {α β : Type} : β ⊕ List β → Selected α β
  | .inl t => .st t
  | .inr l => .stList l

/-- The value `segment.analogsignals[idx]` contributes to the comprehension
of the multi-segment analog-signal branch of `select_data`. -/
def selSig {α β : Type} : α ⊕ List α → Selected α β
  | .inl a => .sig a
  | .inr l => .sigList l

/-- The single-segment analog-signal return of `select_data`: a scalar is
wrapped into a one-element list, a list is returned as-is. -/
def selSigWrap {α β : Type} : α ⊕ List α → List (Selected α β)
  | .inl a => [.sig a]
  | .inr l => l.map .sig

/-- The `try` body of `select_data`: the spike-train branch takes precedence
when `spike_train_index` is given; otherwise the analog-signal branch runs;
otherwise `ValueError` is raised.  A scalar segment subscript is wrapped into
a one-element list (spike branch) or routed to the single-segment analog
path; the per-segment series subscript is re-parsed inside each comprehension
iteration, exactly as in the source. -/
def selectBody {α β : Type} (blk : Block α β) (segment_index : SliceArg)
    (spike_train_index analog_signal_index : Option SliceArg) :
    Except PyErr (List (Selected α β)) :=
  match spike_train_index with
  | some sti => do
    let ps ← _parse_slice segment_index
    let segsV ← pySubscript blk.segments ps
    let segments := Sum.elim (fun s => [s]) id segsV
    segments.mapM (fun seg => do
      let pt ← _parse_slice sti
      let stV ← pySubscript seg.spiketrains pt
      pure (selSpike stV))
  | none =>
    match analog_signal_index with
    | some asi => do
      let ps ← _parse_slice segment_index
      let segsV ← pySubscript blk.segments ps
      match segsV with
      | .inl seg => do
        let pa ← _parse_slice asi
        let aV ← pySubscript seg.analogsignals pa
        pure (selSigWrap aV)
      | .inr segments =>
        segments.mapM (fun seg => do
          let pa ← _parse_slice asi
          let aV ← pySubscript seg.analogsignals pa
          pure (selSig aV))
    | none => .error (.valueError "spike_train or analog_signal index not provided")

/-- The `except IndexError` handler of `select_data`: the caught error's
message is string-matched to decide which dimension to blame; every other
exception propagates unchanged. -/
def classifySelectError (segment_index : SliceArg)
    (spike_train_index analog_signal_index : Option SliceArg) : PyErr → PyErr
  | .indexError msg =>
    if pyContains "spiketrains" msg then
      .valueError ("Provided spike_train_index " ++ optArgStr spike_train_index
        ++ " is out of range")
    else if pyContains "analogsignals" msg then
      .valueError ("Provided analog_signal_index " ++ optArgStr analog_signal_index
        ++ " is out of range")
    else
      .valueError ("Provided segment_index " ++ sliceArgStr segment_index
        ++ " is out of range")
  | e => e

/-- `select_data` from `utils.py`: the `try` body wrapped in the
`except IndexError` handler. -/
def select_data {α β : Type} (blk : Block α β) (segment_index : SliceArg)
    (spike_train_index analog_signal_index : Option SliceArg) :
    Except PyErr (List (Selected α β)) :=
  match selectBody blk segment_index spike_train_index analog_signal_index with
  | .error e =>
    .error (classifySelectError segment_index spike_train_index analog_signal_index e)
  | .ok v => .ok v

/-! ### `prepare_data` -/

/-- `prepare_data` from `utils.py`.  The returned pair is (the state of
`old_block` when the call finishes, the outcome); in an `ok (b, blk)`
outcome, `blk` is the returned Block and `b` records Python object
identity — `true` when the returned object is `old_block` itself, `false`
when it is a freshly created Block.  The `"replace"` branch executes
`old_block.segments = []` and then subscripts `old_block.segments[0]`, which
raises `IndexError("list index out of range")` on the now-empty list; the
`"add"` branch evaluates `old_block.segments.analogsignals` (or
`.spiketrains`), an `AttributeError` on a Python `list`; a `None`
`old_block` raises `AttributeError` on attribute access.  Truthiness of the
data arguments follows Python: `None` and `[]` are falsy. -/
def prepare_data {α β : Type} (old : Option (Block α β))
    (analog_signal : Option (List α)) (spike_train : Option (List β))
    (action : Option String) :
    Option (Block α β) × Except PyErr (Bool × Block α β) :=
  if action ≠ some "new" ∧ action ≠ some "replace" ∧ action ≠ some "add" then
    (old, .error (.valueError "Invalid action. Valid options are 'new', 'replace', 'add'."))
  else if (analog_signal.getD []).isEmpty ∧ (spike_train.getD []).isEmpty then
    (old, .error (.valueError "At least one data element must be provided."))
  else if action = some "new" then
    let seg0 : Segment α β := ⟨[], []⟩
    let seg1 :=
      if (analog_signal.getD []).isEmpty then seg0
      else { seg0 with analogsignals := seg0.analogsignals ++ analog_signal.getD [] }
    let seg2 :=
      if (spike_train.getD []).isEmpty then seg1
      else { seg1 with spiketrains := seg1.spiketrains ++ spike_train.getD [] }
    (old, .ok (false, ⟨[seg2]⟩))
  else if action = some "replace" then
    match old with
    | none => (none, .error (.attributeError "'NoneType' object has no attribute 'segments'"))
    | some b =>
      let b1 : Block α β := { b with segments := [] }
      if ¬ (analog_signal.getD []).isEmpty then
        (some b1, .error (.indexError "list index out of range"))
      else if ¬ (spike_train.getD []).isEmpty then
        (some b1, .error (.indexError "list index out of range"))
      else (some b1, .ok (true, b1))
  else
    match old with
    | none => (none, .error (.attributeError "'NoneType' object has no attribute 'segments'"))
    | some b =>
      if ¬ (analog_signal.getD []).isEmpty then
        (some b, .error (.attributeError "'list' object has no attribute 'analogsignals'"))
      else if ¬ (spike_train.getD []).isEmpty then
        (some b, .error (.attributeError "'list' object has no attribute 'spiketrains'"))
      else (some b, .ok (true, b))
section Helpers

/-- Bind on `Except`: ok case. -/
theorem exbind_ok {ε γ δ : Type} (a : γ) (f : γ → Except ε δ) :
    (Except.ok a >>= f) = f a := rfl

/-- Bind on `Except`: error case. -/
theorem exbind_error {ε γ δ : Type} (e : ε) (f : γ → Except ε δ) :
    ((Except.error e : Except ε γ) >>= f) = Except.error e := rfl

/-- Selecting the indices `l, l+1, ..., l+c-1` out of a list, skipping those
past the end, is `drop` then `take`. -/
theorem filterMap_range'_getElem {α : Type} (xs : List α) :
    ∀ (c l : Nat), (List.range' l c 1).filterMap (fun k => xs[k]?) = (xs.drop l).take c := by
  intro c
  induction c with
  | zero => intro l; simp
  | succ n ih =>
    intro l
    have hcons : List.range' l (n + 1) 1 = l :: List.range' (l + 1) n 1 := rfl
    rw [hcons, List.filterMap_cons]
    by_cases hl : l < xs.length
    · rw [List.getElem?_eq_getElem hl, ih (l + 1),
        List.drop_eq_getElem_cons hl, List.take_succ_cons]
    · rw [List.getElem?_eq_none (by omega), ih (l + 1),
        List.drop_eq_nil_of_le (by omega), List.drop_eq_nil_of_le (by omega)]
      simp

/-- `pySliceSelect` with nonnegative bounds and the default step. -/
theorem pySliceSelect_natBounds {α : Type} (xs : List α) (a h : Nat) :
    pySliceSelect xs (some (a : Int)) (some (h : Int)) none
      = some ((xs.drop (min a xs.length)).take (min h xs.length - min a xs.length)) := by
  unfold pySliceSelect
  have h1 : ¬ ((1 : Int) = 0) := by omega
  have h2 : (0 : Int) < 1 := by omega
  simp only [Option.getD_some, Option.getD_none]
  rw [if_neg h1, if_pos h2]
  have hlo : (if (a : Int) < 0 then max ((a : Int) + (xs.length : Int)) 0
      else min (a : Int) (xs.length : Int)) = ((min a xs.length : Nat) : Int) := by
    rw [if_neg (by omega)]
    omega
  have hhi : (if (h : Int) < 0 then max ((h : Int) + (xs.length : Int)) 0
      else min (h : Int) (xs.length : Int)) = ((min h xs.length : Nat) : Int) := by
    rw [if_neg (by omega)]
    omega
  simp only [hlo, hhi]
  have hd : (1 : Int).toNat = 1 := rfl
  rw [hd]
  have hcnt : ((((min h xs.length : Nat) : Int) - ((min a xs.length : Nat) : Int)).toNat + 1 - 1) / 1
      = min h xs.length - min a xs.length := by omega
  rw [hcnt]
  have htn : (((min a xs.length : Nat) : Int)).toNat = min a xs.length := by omega
  rw [htn, filterMap_range'_getElem]

/-- `mapM` over `Except` succeeds pointwise. -/
theorem mapM_ok_of_forall {γ δ : Type} (f : γ → Except PyErr δ) (g : γ → δ) :
    ∀ (l : List γ), (∀ x ∈ l, f x = .ok (g x)) → l.mapM f = .ok (l.map g) := by
  intro l
  induction l with
  | nil => intro _; rfl
  | cons x xs ih =>
    intro hall
    rw [List.mapM_cons, hall x (List.mem_cons_self x xs), exbind_ok,
      ih (fun y hy => hall y (List.mem_cons_of_mem x hy)), exbind_ok]
    rfl

/-- An error from `mapM` over `Except` comes from one of the elements. -/
theorem mapM_error_mem {γ δ : Type} (f : γ → Except PyErr δ) :
    ∀ (l : List γ) (e : PyErr), l.mapM f = .error e → ∃ x ∈ l, f x = .error e := by
  intro l
  induction l with
  | nil => intro e h; rw [List.mapM_nil] at h; exact Except.noConfusion h
  | cons x xs ih =>
    intro e h
    rw [List.mapM_cons] at h
    cases hx : f x with
    | error e1 =>
      rw [hx, exbind_error] at h
      cases h
      exact ⟨x, List.mem_cons_self x xs, hx⟩
    | ok v =>
      rw [hx, exbind_ok] at h
      cases hxs : xs.mapM f with
      | error e2 =>
        rw [hxs, exbind_error] at h
        obtain ⟨y, hy, hfy⟩ := ih e2 hxs
        cases h
        exact ⟨y, List.mem_cons_of_mem x hy, hfy⟩
      | ok vs =>
        rw [hxs, exbind_ok] at h
        exact Except.noConfusion h

end Helpers

/-- A two-part range token `sa ++ ":" ++ sb` whose components parse as
integers is parsed by `_parse_slice` into `slice(a, b + 1, None)`: the
inclusive `stop` is converted to an exclusive bound by adding 1. -/
theorem parse_slice_two_parts (sa sb : String) (a b : Int)
    (hsplit : pySplit (sa ++ ":" ++ sb) = [sa, sb])
    (hsa : parseComp sa = some (some a))
    (hsb : parseComp sb = some (some b)) :
    _parse_slice (.str (sa ++ ":" ++ sb)) = .ok (.slice ⟨some a, some (b + 1), none⟩) := by
  have hall : ¬ (sa ++ ":" ++ sb = "all") := by
    intro hcontra
    rw [hcontra] at hsplit
    have hlen : (pySplit "all").length = 1 := rfl
    rw [hsplit] at hlen
    exact absurd hlen (by simp)
  simp only [_parse_slice, if_neg hall, hsplit, List.getD_cons_zero, List.getD_cons_succ,
    hsa, hsb, List.length_cons, List.length_nil]
  norm_num

/-- A range token `sa ++ ":"` with an empty `stop` component parses with
`stop = None`: no 1 is added when the `stop` part is empty. -/
theorem parse_slice_empty_stop (sa : String) (a : Int)
    (hsplit : pySplit (sa ++ ":") = [sa, ""])
    (hsa : parseComp sa = some (some a)) :
    _parse_slice (.str (sa ++ ":")) = .ok (.slice ⟨some a, none, none⟩) := by
  have hall : ¬ (sa ++ ":" = "all") := by
    intro hcontra
    rw [hcontra] at hsplit
    have hlen : (pySplit "all").length = 1 := rfl
    rw [hsplit] at hlen
    exact absurd hlen (by simp)
  simp only [_parse_slice, if_neg hall, hsplit, List.getD_cons_zero, List.getD_cons_succ,
    hsa, List.length_cons, List.length_nil]
  norm_num
  rfl

/-- `_parse_slice` only ever raises `ValueError`. -/
theorem parse_slice_error_valueError (arg : SliceArg) (e : PyErr)
    (h : _parse_slice arg = .error e) : ∃ m, e = .valueError m := by
  cases arg with
  | int n => exact absurd h (by simp [_parse_slice])
  | str s0 =>
    simp only [_parse_slice] at h
    split at h
    · exact Except.noConfusion h
    · exact ⟨_, (Except.error.inj h).symm⟩

/-- `pySubscript` raises `IndexError` only with the CPython list message. -/
theorem pySubscript_indexError {γ : Type} (l : List γ) (p : ParsedIndex) (msg : String)
    (h : pySubscript l p = .error (.indexError msg)) : msg = "list index out of range" := by
  cases p with
  | int n =>
    simp only [pySubscript] at h
    cases hg : pyGetItem l n with
    | some x => rw [hg] at h; exact Except.noConfusion h
    | none =>
      rw [hg] at h
      exact (PyErr.indexError.inj (Except.error.inj h)).symm
  | slice sl =>
    simp only [pySubscript] at h
    cases hs : pySliceSelect l sl.start sl.stop sl.step with
    | some xs => rw [hs] at h; exact Except.noConfusion h
    | none =>
      rw [hs] at h
      exact absurd (Except.error.inj h) (by intro hc; exact PyErr.noConfusion hc)

/-- A parse-then-subscript-then-pure pipeline over `Except` raises
`IndexError` only with the CPython list message. -/
theorem parseSubscript_indexError {γ δ : Type} (arg : SliceArg) (l : List γ)
    (k : γ ⊕ List γ → δ) (msg : String)
    (h : (do
          let p ← _parse_slice arg
          let v ← pySubscript l p
          pure (k v) : Except PyErr δ) = .error (.indexError msg)) :
    msg = "list index out of range" := by
  cases hp : _parse_slice arg with
  | error e =>
    rw [hp, exbind_error] at h
    obtain ⟨m, hm⟩ := parse_slice_error_valueError arg e hp
    rw [hm] at h
    exact absurd (Except.error.inj h) (by intro hc; exact PyErr.noConfusion hc)
  | ok p =>
    rw [hp, exbind_ok] at h
    cases hv : pySubscript l p with
    | error e2 =>
      rw [hv, exbind_error] at h
      cases Except.error.inj h
      exact pySubscript_indexError l p msg hv
    | ok v =>
      rw [hv, exbind_ok] at h
      exact Except.noConfusion h

/-- The spike-train branch of the `try` body of `select_data` raises
`IndexError` only with the CPython list message — in particular never one
containing "spiketrains" or "analogsignals". -/
theorem selectBody_indexError_msg {α β : Type} (blk : Block α β) (si : SliceArg)
    (sti : SliceArg) (asi : Option SliceArg) (msg : String)
    (h : selectBody blk si (some sti) asi = .error (.indexError msg)) :
    msg = "list index out of range" := by
  simp only [selectBody] at h
  cases hp : _parse_slice si with
  | error e =>
    rw [hp, exbind_error] at h
    obtain ⟨m, hm⟩ := parse_slice_error_valueError si e hp
    rw [hm] at h
    exact absurd (Except.error.inj h) (by intro hc; exact PyErr.noConfusion hc)
  | ok p =>
    rw [hp, exbind_ok] at h
    cases hv : pySubscript blk.segments p with
    | error e2 =>
      rw [hv, exbind_error] at h
      cases Except.error.inj h
      exact pySubscript_indexError blk.segments p msg hv
    | ok segsV =>
      rw [hv, exbind_ok] at h
      obtain ⟨seg, _, hseg⟩ := mapM_error_mem _ _ _ h
      exact parseSubscript_indexError sti seg.spiketrains selSpike msg hseg

/-! ### Claims -/

/-- C1: the claim says `prepare_data` with action "replace" succeeds, leaves
the existing Block with exactly one Segment holding the supplied data and
returns the same object.  The code instead empties `old_block.segments` and
then subscripts `old_block.segments[0]`, so every "replace" call with data
raises `IndexError("list index out of range")` after having already cleared
the Segment list: here, on a Block with one Segment and one new signal. -/
theorem claim_C1_replace_raises :
    prepare_data (some (⟨[⟨[1], [2]⟩]⟩ : Block Nat Nat)) (some [5]) none (some "replace")
      = (some ⟨[]⟩, .error (.indexError "list index out of range")) := rfl

/-- C4: the claim says an out-of-range series index is reported as a
series-index error.  On a Block whose Segment 0 exists but has no analog
signals, `select_data(block, 0, analog_signal_index=0)` fails while indexing
the signal list, yet the emitted message blames `segment_index`: the caught
`IndexError` text "list index out of range" contains neither "spiketrains"
nor "analogsignals", so the string-matching handler always falls through to
the segment message. -/
theorem claim_C4_misreported_dimension :
    select_data (⟨[⟨([] : List Nat), ([] : List Nat)⟩]⟩ : Block Nat Nat)
        (.int 0) none (some (.int 0))
      = .error (.valueError "Provided segment_index 0 is out of range")
    ∧ pyGetItem (⟨[⟨([] : List Nat), ([] : List Nat)⟩]⟩ : Block Nat Nat).segments 0
      = some ⟨[], []⟩
    ∧ pyGetItem (⟨([] : List Nat), ([] : List Nat)⟩ : Segment Nat Nat).analogsignals 0
      = none
    ∧ pyContains "spiketrains" "list index out of range" = false
    ∧ pyContains "analogsignals" "list index out of range" = false :=
  ⟨rfl, rfl, rfl, rfl, rfl⟩

/-- C2 counterexample: with two Segments of one signal each and the span
series range "0:0" (a valid series range), the claim's flat concatenation of
the per-segment results would be `[sig 10, sig 20]`, but `select_data`
returns one *nested* per-segment list per Segment, not a flat sequence of
signals. -/
theorem claim_C2_counterexample :
    select_data (⟨[⟨[10], ([] : List Nat)⟩, ⟨[20], []⟩]⟩ : Block Nat Nat)
        (.str "0:1") none (some (.str "0:0"))
      = .ok [.sigList [10], .sigList [20]]
    ∧ (Except.ok [Selected.sigList [10], Selected.sigList [20]]
        : Except PyErr (List (Selected Nat Nat)))
      ≠ .ok [.sig 10, .sig 20] :=
  ⟨rfl, by decide⟩

/-- C3 counterexample: supplying both a spike-train range and an
analog-signal range does not fail — the call succeeds (the spike-train branch
takes precedence), refuting "a call supplying both ... fails with an
error". -/
theorem claim_C3_counterexample :
    select_data (⟨[⟨[1], [7]⟩]⟩ : Block Nat Nat)
        (.int 0) (some (.int 0)) (some (.int 0)) = .ok [.st 7] := rfl

/-- C3 (amended): supplying neither series range fails with
`ValueError("spike_train or analog_signal index not provided")`; supplying
both does not fail — the spike-train range takes precedence and the
analog-signal range is ignored, the call behaving exactly as if only the
spike-train range had been given. -/
theorem claim_C3_exactly_one {α β : Type} (blk : Block α β) (si : SliceArg)
    (sti asi : SliceArg) :
    select_data blk si none none
      = .error (.valueError "spike_train or analog_signal index not provided")
    ∧ select_data blk si (some sti) (some asi) = select_data blk si (some sti) none := by
  constructor
  · rfl
  · have hbody : selectBody blk si (some sti) (some asi)
        = selectBody blk si (some sti) none := rfl
    unfold select_data
    rw [hbody]
    cases hr : selectBody blk si (some sti) none with
    | ok v => rfl
    | error e =>
      cases e with
      | valueError m => rfl
      | attributeError m => rfl
      | indexError m =>
        have hm : m = "list index out of range" :=
          selectBody_indexError_msg blk si sti none m hr
        rw [hm]
        rfl

/-- C6: `prepare_data` with action "new" ignores the existing container,
leaves it unchanged (the returned post-call state is exactly the input), and
returns a fresh Block (identity flag `false`) with exactly one Segment
holding the provided signals and spike trains in the order given. -/
theorem claim_C6_new_block {α β : Type} (old : Option (Block α β))
    (sigs : List α) (evs : List β) (h : sigs ≠ [] ∨ evs ≠ []) :
    prepare_data old (some sigs) (some evs) (some "new")
      = (old, .ok (false, ⟨[⟨sigs, evs⟩]⟩)) := by
  cases sigs with
  | nil =>
    cases evs with
    | nil => simp at h
    | cons e es => simp [prepare_data]
  | cons s ss =>
    cases evs with
    | nil => simp [prepare_data]
    | cons e es => simp [prepare_data]

/-- C6 witness. -/
theorem claim_C6_new_block_witness :
    prepare_data (some (⟨[⟨[9], [9]⟩]⟩ : Block Nat Nat)) (some [1]) (some []) (some "new")
      = (some ⟨[⟨[9], [9]⟩]⟩, .ok (false, ⟨[⟨[1], []⟩]⟩)) :=
  claim_C6_new_block (some ⟨[⟨[9], [9]⟩]⟩) [1] [] (Or.inl (by decide))

/-- C7: `prepare_data` checks its preconditions before touching the existing
container: an action outside "new"/"replace"/"add" fails with the
invalid-action `ValueError`, and (for a recognized action) empty-or-absent
signals and spike trains together fail with the empty-input `ValueError` —
in both cases the post-call state of the existing container is exactly the
input, so a rejected call never leaves it partially modified. -/
theorem claim_C7_preconditions_first {α β : Type} (old : Option (Block α β))
    (ansig : Option (List α)) (sptr : Option (List β)) (action : Option String) :
    (action ≠ some "new" → action ≠ some "replace" → action ≠ some "add" →
      prepare_data old ansig sptr action
        = (old, .error (.valueError "Invalid action. Valid options are 'new', 'replace', 'add'.")))
    ∧ ((action = some "new" ∨ action = some "replace" ∨ action = some "add") →
      (ansig.getD []).isEmpty → (sptr.getD []).isEmpty →
      prepare_data old ansig sptr action
        = (old, .error (.valueError "At least one data element must be provided."))) := by
  constructor
  · intro h1 h2 h3
    unfold prepare_data
    rw [if_pos ⟨h1, h2, h3⟩]
  · intro hact he1 he2
    unfold prepare_data
    rw [if_neg (by
      intro hcontra
      rcases hact with h | h | h <;> [exact hcontra.1 h; exact hcontra.2.1 h; exact hcontra.2.2 h]),
      if_pos ⟨he1, he2⟩]

/-- C7 witness. -/
theorem claim_C7_preconditions_first_witness :
    prepare_data (some (⟨[⟨[1], [1]⟩]⟩ : Block Nat Nat)) (some [2]) none (some "bogus")
      = (some ⟨[⟨[1], [1]⟩]⟩,
         .error (.valueError "Invalid action. Valid options are 'new', 'replace', 'add'."))
    ∧ prepare_data (some (⟨[⟨[1], [1]⟩]⟩ : Block Nat Nat)) (some ([] : List Nat)) none (some "new")
      = (some ⟨[⟨[1], [1]⟩]⟩,
         .error (.valueError "At least one data element must be provided.")) :=
  ⟨(claim_C7_preconditions_first (some ⟨[⟨[1], [1]⟩]⟩) (some [2]) none (some "bogus")).1
      (by decide) (by decide) (by decide),
   (claim_C7_preconditions_first (some ⟨[⟨[1], [1]⟩]⟩) (some []) none (some "new")).2
      (Or.inl rfl) (by decide) (by decide)⟩


/-- C8: selecting with a single integer segment index and a single integer
series index returns a list of length exactly one holding the addressed
SpikeTrain (spike branch) or AnalogSignal (analog branch), never the bare
object. -/
theorem claim_C8_singleton_result {α β : Type} (blk : Block α β) (i j : Int)
    (seg : Segment α β) (t : β) (a : α)
    (hseg : pyGetItem blk.segments i = some seg) :
    (pyGetItem seg.spiketrains j = some t →
      select_data blk (.int i) (some (.int j)) none = .ok [.st t])
    ∧ (pyGetItem seg.analogsignals j = some a →
      select_data blk (.int i) none (some (.int j)) = .ok [.sig a]) := by
  have hps : _parse_slice (SliceArg.int i) = .ok (.int i) := rfl
  have hpt : _parse_slice (SliceArg.int j) = .ok (.int j) := rfl
  have hsub : pySubscript blk.segments (.int i) = .ok (.inl seg) := by
    simp [pySubscript, hseg]
  constructor
  · intro hst
    have hstv : pySubscript seg.spiketrains (.int j) = .ok (.inl t) := by
      simp [pySubscript, hst]
    have hb : selectBody blk (.int i) (some (.int j)) none = .ok [.st t] := by
      simp only [selectBody, hps, hsub, hpt, hstv, exbind_ok, Sum.elim_inl,
        List.mapM_cons, List.mapM_nil, selSpike, pure_bind]
      rfl
    unfold select_data
    rw [hb]
  · intro ha
    have hav : pySubscript seg.analogsignals (.int j) = .ok (.inl a) := by
      simp [pySubscript, ha]
    have hb : selectBody blk (.int i) none (some (.int j)) = .ok [.sig a] := by
      simp only [selectBody, hps, hsub, hpt, hav, exbind_ok, selSigWrap]
      rfl
    unfold select_data
    rw [hb]

/-- C8 witness. -/
theorem claim_C8_singleton_result_witness :
    select_data (⟨[⟨[4], [7]⟩]⟩ : Block Nat Nat) (.int 0) (some (.int 0)) none = .ok [.st 7]
    ∧ select_data (⟨[⟨[4], [7]⟩]⟩ : Block Nat Nat) (.int 0) none (some (.int 0))
      = .ok [.sig 4] :=
  ⟨(claim_C8_singleton_result (⟨[⟨[4], [7]⟩]⟩ : Block Nat Nat) 0 0 ⟨[4], [7]⟩ 7 4 rfl).1 rfl,
   (claim_C8_singleton_result (⟨[⟨[4], [7]⟩]⟩ : Block Nat Nat) 0 0 ⟨[4], [7]⟩ 7 4 rfl).2 rfl⟩

/-- `pyGetItem` with a natural-number index is plain list lookup. -/
theorem pyGetItem_natIndex {γ : Type} (xs : List γ) (n : Nat) :
    pyGetItem xs ((n : Int)) = xs[n]? := by
  simp only [pyGetItem]
  rw [if_neg (by omega : ¬ ((n : Int) < 0))]
  rw [if_pos (by omega : (0 : Int) ≤ (n : Int))]
  congr 1

/-- C2 (amended): when the segment range resolves to a span of Segments, the
series range is resolved independently within each Segment and the results
are returned one entry per Segment in Segment order; for a single integer
series index this is the flat list of the addressed signals — in particular,
on a Block with 2 Segments of 3 and 2 signals, segment range "0:1" and
signal index 1 yield `[seg0.signals[1], seg1.signals[1]]`.  (For a span
series range, each per-Segment entry is that Segment's selected sub-list,
nested rather than flattened.) -/
theorem claim_C2_span_per_segment {α β : Type} (blk : Block α β) (segArg : SliceArg)
    (sl : PySlice) (segs : List (Segment α β)) (j : Nat) (dflt : α)
    (hp : _parse_slice segArg = .ok (.slice sl))
    (hs : pySliceSelect blk.segments sl.start sl.stop sl.step = some segs)
    (hj : ∀ seg ∈ segs, j < seg.analogsignals.length) :
    select_data blk segArg none (some (.int (j : Int)))
      = .ok (segs.map (fun seg => Selected.sig (seg.analogsignals.getD j dflt)))
    ∧ select_data (⟨[⟨[10, 11, 12], ([] : List Nat)⟩, ⟨[20, 21], []⟩]⟩ : Block Nat Nat)
        (.str "0:1") none (some (.int 1)) = .ok [.sig 11, .sig 21] := by
  constructor
  · have hsub : pySubscript blk.segments (.slice sl) = .ok (.inr segs) := by
      simp [pySubscript, hs]
    have hb : selectBody blk segArg none (some (SliceArg.int (j : Int)))
        = .ok (segs.map (fun seg => Selected.sig (seg.analogsignals.getD j dflt))) := by
      simp only [selectBody, hp, hsub, exbind_ok]
      exact mapM_ok_of_forall _ _ segs (fun seg hmem => by
        have hjlen := hj seg hmem
        have hg : pyGetItem seg.analogsignals ((j : Nat) : Int)
            = some (seg.analogsignals.getD j dflt) := by
          rw [pyGetItem_natIndex, List.getElem?_eq_getElem hjlen,
            List.getD_eq_getElem seg.analogsignals dflt hjlen]
        have hsub2 : pySubscript seg.analogsignals (.int (j : Int))
            = .ok (.inl (seg.analogsignals.getD j dflt)) := by
          simp [pySubscript, hg]
        simp only [_parse_slice, hsub2, exbind_ok, selSig]
        try rfl)
    unfold select_data
    rw [hb]
  · rfl

/-- C5: a two-part range token with integer components `a ≤ b` (zero-based,
per the token grammar) parses to `slice(a, b + 1, None)` — the inclusive
`stop` converted to exclusive by adding 1, and only because the `stop`
component is present and non-empty (with an empty `stop`, e.g. `"a:"`, no 1
is added and `stop` stays `None`) — and, applied to any list extending past
index `b`, the span selects exactly the window from `a` to `b` inclusive:
length `b - a + 1`, first element the one at index `a`, last the one at
index `b`. -/
theorem claim_C5_inclusive_stop {α : Type} (a b : Nat) (sa sb : String) (xs : List α)
    (hab : a ≤ b)
    (hsa : parseComp sa = some (some (a : Int)))
    (hsb : parseComp sb = some (some (b : Int)))
    (hsplit : pySplit (sa ++ ":" ++ sb) = [sa, sb])
    (hsplit2 : pySplit (sa ++ ":") = [sa, ""])
    (hlen : b < xs.length) :
    _parse_slice (.str (sa ++ ":" ++ sb))
      = .ok (.slice ⟨some (a : Int), some ((b : Int) + 1), none⟩)
    ∧ _parse_slice (.str (sa ++ ":")) = .ok (.slice ⟨some (a : Int), none, none⟩)
    ∧ pySliceSelect xs (some (a : Int)) (some ((b : Int) + 1)) none
      = some ((xs.drop a).take (b + 1 - a))
    ∧ ((xs.drop a).take (b + 1 - a)).length = b - a + 1
    ∧ ((xs.drop a).take (b + 1 - a))[0]? = xs[a]?
    ∧ ((xs.drop a).take (b + 1 - a))[b - a]? = xs[b]? := by
  have hsel : pySliceSelect xs (some (a : Int)) (some ((b : Int) + 1)) none
      = some ((xs.drop a).take (b + 1 - a)) := by
    have hcast : ((b : Int) + 1) = (((b + 1 : Nat)) : Int) := by push_cast; ring
    rw [hcast, pySliceSelect_natBounds]
    rw [Nat.min_eq_left (by omega : a ≤ xs.length),
      Nat.min_eq_left (by omega : b + 1 ≤ xs.length)]
  refine ⟨parse_slice_two_parts sa sb a b hsplit hsa hsb,
    parse_slice_empty_stop sa a hsplit2 hsa, hsel, ?_, ?_, ?_⟩
  · rw [List.length_take, List.length_drop]; omega
  · rw [List.getElem?_take, if_pos (by omega : 0 < b + 1 - a), List.getElem?_drop]
    congr 1
  · rw [List.getElem?_take, if_pos (by omega : b - a < b + 1 - a), List.getElem?_drop]
    congr 1
    omega

/-- C5 witness. -/
theorem claim_C5_inclusive_stop_witness :
    _parse_slice (.str ("1" ++ ":" ++ "3")) = .ok (.slice ⟨some 1, some (3 + 1), none⟩)
    ∧ pySliceSelect ([0, 1, 2, 3, 4] : List Nat) (some 1) (some (3 + 1)) none
      = some [1, 2, 3] := by
  have h := claim_C5_inclusive_stop 1 3 "1" "3" ([0, 1, 2, 3, 4] : List Nat)
    (by decide) rfl rfl rfl rfl (by decide)
  exact ⟨h.1, h.2.2.1.trans rfl⟩

/-- C9: a two-part range token whose `stop` is below its `start` still
parses (to `slice(a, b + 1, None)`), and the resulting span applied to any
list yields the empty selection — never an error. -/
theorem claim_C9_empty_backwards {α : Type} (a b : Nat) (sa sb : String)
    (hba : b < a)
    (hsa : parseComp sa = some (some (a : Int)))
    (hsb : parseComp sb = some (some (b : Int)))
    (hsplit : pySplit (sa ++ ":" ++ sb) = [sa, sb]) :
    _parse_slice (.str (sa ++ ":" ++ sb))
      = .ok (.slice ⟨some (a : Int), some ((b : Int) + 1), none⟩)
    ∧ ∀ (xs : List α), pySliceSelect xs (some (a : Int)) (some ((b : Int) + 1)) none
      = some [] := by
  refine ⟨parse_slice_two_parts sa sb a b hsplit hsa hsb, fun xs => ?_⟩
  have hcast : ((b : Int) + 1) = (((b + 1 : Nat)) : Int) := by push_cast; ring
  rw [hcast, pySliceSelect_natBounds]
  have hz : min (b + 1) xs.length - min a xs.length = 0 := by omega
  rw [hz]
  rfl

/-- C9 witness. -/
theorem claim_C9_empty_backwards_witness :
    _parse_slice (.str ("3" ++ ":" ++ "1")) = .ok (.slice ⟨some 3, some (1 + 1), none⟩)
    ∧ pySliceSelect ([0, 1, 2, 3, 4] : List Nat) (some 3) (some (1 + 1)) none = some [] := by
  have h := @claim_C9_empty_backwards Nat 3 1 "3" "1" (by decide) rfl rfl rfl
  exact ⟨h.1, h.2 ([0, 1, 2, 3, 4] : List Nat)⟩

/-- C10: a single-segment analog-signal selection with a span token whose
inclusive upper bound `b` reaches past the Segment's signal list succeeds
and returns every signal from index `a` on — the span silently saturates at
the actual length instead of raising an out-of-range error. -/
theorem claim_C10_saturating_span {α β : Type} (blk : Block α β) (i : Int)
    (seg : Segment α β) (a b : Nat) (sa sb : String)
    (hseg : pyGetItem blk.segments i = some seg)
    (hsa : parseComp sa = some (some (a : Int)))
    (hsb : parseComp sb = some (some (b : Int)))
    (hsplit : pySplit (sa ++ ":" ++ sb) = [sa, sb])
    (hlen : seg.analogsignals.length ≤ b) :
    select_data blk (.int i) none (some (.str (sa ++ ":" ++ sb)))
      = .ok ((seg.analogsignals.drop a).map Selected.sig) := by
  have hp := parse_slice_two_parts sa sb a b hsplit hsa hsb
  have hsub : pySubscript blk.segments (.int i) = .ok (.inl seg) := by
    simp [pySubscript, hseg]
  have hsel : pySliceSelect seg.analogsignals (some (a : Int)) (some ((b : Int) + 1)) none
      = some (seg.analogsignals.drop a) := by
    have hcast : ((b : Int) + 1) = (((b + 1 : Nat)) : Int) := by push_cast; ring
    rw [hcast, pySliceSelect_natBounds]
    rw [Nat.min_eq_right (by omega : seg.analogsignals.length ≤ b + 1)]
    by_cases hcase : a ≤ seg.analogsignals.length
    · rw [Nat.min_eq_left hcase]
      congr 1
      exact List.take_of_length_le (by rw [List.length_drop])
    · rw [Nat.min_eq_right (by omega : seg.analogsignals.length ≤ a)]
      rw [Nat.sub_self, List.take_zero]
      rw [List.drop_eq_nil_of_le (by omega : seg.analogsignals.length ≤ a)]
  have hsub2 : pySubscript seg.analogsignals
      (.slice ⟨some (a : Int), some ((b : Int) + 1), none⟩)
      = .ok (.inr (seg.analogsignals.drop a)) := by
    simp [pySubscript, hsel]
  have hb : selectBody blk (.int i) none (some (.str (sa ++ ":" ++ sb)))
      = .ok ((seg.analogsignals.drop a).map Selected.sig) := by
    have hpi : _parse_slice (SliceArg.int i) = .ok (.int i) := rfl
    simp only [selectBody, hpi, hp, hsub, hsub2, exbind_ok, selSigWrap]
    try rfl
  unfold select_data
  rw [hb]

/-- C10 witness. -/
theorem claim_C10_saturating_span_witness :
    select_data (⟨[⟨[4, 5, 6], ([] : List Nat)⟩]⟩ : Block Nat Nat)
        (.int 0) none (some (.str ("0" ++ ":" ++ "5")))
      = .ok [.sig 4, .sig 5, .sig 6] := by
  have h := claim_C10_saturating_span (⟨[⟨[4, 5, 6], ([] : List Nat)⟩]⟩ : Block Nat Nat)
    0 ⟨[4, 5, 6], []⟩ 0 5 "0" "5" rfl rfl rfl rfl (by decide)
  exact h.trans rfl

/-- C2 witness. -/
theorem claim_C2_span_per_segment_witness :
    select_data (⟨[⟨[10, 11, 12], ([] : List Nat)⟩, ⟨[20, 21], []⟩]⟩ : Block Nat Nat)
        (.str "0:1") none (some (.int 1)) = .ok [.sig 11, .sig 21] := by
  have h := claim_C2_span_per_segment
    (⟨[⟨[10, 11, 12], ([] : List Nat)⟩, ⟨[20, 21], []⟩]⟩ : Block Nat Nat)
    (.str "0:1") ⟨some 0, some 2, none⟩ [⟨[10, 11, 12], []⟩, ⟨[20, 21], []⟩] 1 0
    rfl rfl (by decide)
  exact h.1.trans rfl
